import Mathlib

/-!
Verification development for the catalogue crawler in `scraper.py`
(FastAPI scraping assignment: Scraper / LocalStorage / Notifier /
ScrapingManager plus a module-level `download_image` function).

The Python code is shallowly embedded:
  * prices (Python `float` values produced by `float(...)` and compared
    only for equality) are modelled as rationals `ℚ`;
  * fallible Python code is modelled with explicit error values of type
    `PyErr` (the exception classes that can actually be raised);
  * the in-memory `self.data_cache` dict is modelled as an
    insertion-ordered association list (Python dicts preserve insertion
    order; price updates mutate an entry in place, new keys append);
  * external collaborators (the HTTP stack, BeautifulSoup, the JSON
    decoder, the filesystem) are modelled at their interfaces: a fetched
    page is abstracted as the structure of the queries the parser
    performs on it, a stored file as the JSON value it decodes to.

A central fact about the source: `download_image` (scraper.py line 308)
is defined at module level — at indentation column 0, outside class
`ScrapingManager` — yet `ScrapingManager.db_cache_extend` (line 295)
invokes it as `self.download_image(...)`.  `ScrapingManager` has no
attribute `download_image`, so that attribute lookup raises
`AttributeError` before any call, any download attempt, or any cache
mutation for that product happens.  The embedding reproduces this.
-/

/-- Python exception classes that the embedded code can raise. -/
inductive PyErr where
  | attributeError
  | indexError
  | keyError
  | valueError
  deriving DecidableEq, Repr

/-- Equality of modelled call results (needed to evaluate the embedded
functions on concrete inputs). -/
instance instDecEqExc {ε α : Type} [DecidableEq ε] [DecidableEq α] :
    DecidableEq (Except ε α) := fun x y =>
  match x, y with
  | Except.ok a, Except.ok b =>
    if h : a = b then isTrue (by rw [h]) else isFalse fun hc => h (Except.ok.inj hc)
  | Except.error e, Except.error f =>
    if h : e = f then isTrue (by rw [h]) else isFalse fun hc => h (Except.error.inj hc)
  | Except.ok _, Except.error _ => isFalse fun hc => Except.noConfusion hc
  | Except.error _, Except.ok _ => isFalse fun hc => Except.noConfusion hc

/-- A raw product record as built by `Scraper._scrape_product_info`:
keys `product_title`, `product_price`, `image_src` (scraper.py lines
117-146).  Prices are modelled as `ℚ`. -/
structure RawProduct where
  product_title : String
  product_price : ℚ
  image_src : String
  deriving DecidableEq, Repr

/-- A persisted product record, the element shape of the JSON list that
`LocalStorage` saves and loads: keys `product_title`, `product_price`,
`path_to_image` (scraper.py lines 171-177). -/
structure Record where
  product_title : String
  product_price : ℚ
  path_to_image : String
  deriving DecidableEq, Repr

/-- The in-memory `self.data_cache : dict[str, list[float, str]]` of
`ScrapingManager` (scraper.py line 240): an insertion-ordered mapping
from title to `[price, image_path]`. -/
abbrev Catalogue := List (String × ℚ × String)

/-- The titles (dict keys) of a catalogue, in insertion order. -/
def titles (c : Catalogue) : List String :=
  c.map (fun e => e.1)

/-- Python `product_title in self.data_cache` (scraper.py line 294):
key membership. -/
def containsTitle (c : Catalogue) (t : String) : Bool :=
  (titles c).contains t

/-- Dict value lookup `self.data_cache[title]`: the `[price, path]`
pair stored at the first (unique, for dict-built catalogues) entry with
this title. -/
def lookupEntry : Catalogue → String → Option (ℚ × String)
  | [], _ => none
  | (t, pr, path) :: rest, t0 =>
    if t = t0 then some (pr, path) else lookupEntry rest t0

/-- `self.data_cache[title][0] = price` (scraper.py line 297) on a
present key: mutate the price slot of the entry in place, preserving
its position and its `image_path` slot. -/
def setPrice : Catalogue → String → ℚ → Catalogue
  | [], _, _ => []
  | (t, pr, path) :: rest, t0, pr0 =>
    if t = t0 then (t, pr0, path) :: rest
    else (t, pr, path) :: setPrice rest t0 pr0

/-- `d[k] = v` on a Python dict: overwrite in place if the key is
present, append a new entry otherwise. -/
def dictSet (c : Catalogue) (t : String) (v : ℚ × String) : Catalogue :=
  if containsTitle c t then
    match c with
    | [] => []
    | e :: rest =>
      if e.1 = t then (t, v) :: rest else e :: dictSet rest t v
  else c ++ [(t, v)]

/-- `ScrapingManager.db_cache_fetch` (scraper.py lines 263-275): rebuild
`self.data_cache` from the loaded record list via the dict comprehension
`{p["product_title"]: [p["product_price"], p["path_to_image"]] for p in
data}`.  (The `assert isinstance` checks on lines 268-274 hold for every
well-typed `Record` and are invisible in the embedding.) -/
def db_cache_fetch (data : List Record) : Catalogue :=
  data.foldl
    (fun c r => dictSet c r.product_title (r.product_price, r.path_to_image)) []

/-- `ScrapingManager.db_cache_to_dict` (scraper.py lines 299-305). -/
def db_cache_to_dict (c : Catalogue) : List Record :=
  c.map (fun e => ⟨e.1, e.2.1, e.2.2⟩)

/-- The outcome of `ScrapingManager.db_cache_extend`: the cache after
the call (Python mutates `self.data_cache` in place, so mutations made
before an exception survive it), the `(image_url, title)` arguments of
every invocation of the module-level `download_image` that actually
began executing, and the exception the call raised, if any. -/
structure ExtendOut where
  cache : Catalogue
  downloads : List (String × String)
  err : Option PyErr
  deriving DecidableEq, Repr

/-- `ScrapingManager.db_cache_extend` (scraper.py lines 277-297), the
per-product loop of lines 290-297.  The validation asserts of lines
283-289 hold for every well-typed `RawProduct` list.  For a title not
in the cache, line 295 evaluates `self.download_image`; class
`ScrapingManager` has no attribute `download_image` (the function of
that name at line 308 is module-level), so the lookup raises
`AttributeError`: no download begins, and neither the line-296
insertion nor the line-297 price write runs for that product or any
later one.  For a present title the only effect is the unconditional
line-297 price write. -/
def db_cache_extend (c : Catalogue) : List RawProduct → ExtendOut
  | [] => ⟨c, [], none⟩
  | p :: rest =>
    if containsTitle c p.product_title then
      db_cache_extend (setPrice c p.product_title p.product_price) rest
    else
      ⟨c, [], some PyErr.attributeError⟩

/-! ### Python string primitives

The Python string operations the scraper uses — `str.strip`,
`str.split`, `str.replace`, substring `in` — are modelled over
character lists with structural recursion (Lean's own `String.trim`,
`String.splitOn` and `String.replace` are well-founded-recursive and do
not evaluate inside the kernel).  `pyStrip` covers the ASCII whitespace
Python strips (the exotic unicode spaces never occur in the scraped
texts); the split and replace walk the string left to right over
non-overlapping occurrences, exactly as Python does.  All separators
and patterns used are nonempty. -/

/-- Python `s.strip()`. -/
def pyStrip (s : String) : String :=
  String.mk (((s.toList.dropWhile Char.isWhitespace).reverse.dropWhile
    Char.isWhitespace).reverse)

/-- The left-to-right split of a character list on a nonempty separator
(Python `str.split(sep)` semantics); `fuel` bounds the recursion and is
chosen at least the list length. -/
def pySplitAux (sep : List Char) : Nat → List Char → List (List Char)
  | _, [] => [[]]
  | 0, l => [l]
  | fuel + 1, c :: rest =>
    if sep.isPrefixOf (c :: rest) then
      [] :: pySplitAux sep fuel ((c :: rest).drop sep.length)
    else
      match pySplitAux sep fuel rest with
      | [] => [[c]]
      | h :: t => (c :: h) :: t

/-- Python `s.split(sep)` for a nonempty separator. -/
def pySplit (s sep : String) : List String :=
  (pySplitAux sep.toList s.toList.length s.toList).map String.mk

/-- Occurrence test over character lists (Python `old in s` for a
nonempty pattern `old`). -/
def containsSub (pat : List Char) : List Char → Bool
  | [] => pat.isEmpty
  | c :: rest => pat.isPrefixOf (c :: rest) || containsSub pat rest

/-- The left-to-right replacement of non-overlapping occurrences of a
nonempty pattern (Python `str.replace` semantics); `fuel` as in
`pySplitAux`. -/
def pyReplaceAux (pat rep : List Char) : Nat → List Char → List Char
  | _, [] => []
  | 0, l => l
  | fuel + 1, c :: rest =>
    if pat.isPrefixOf (c :: rest) then
      rep ++ pyReplaceAux pat rep fuel ((c :: rest).drop pat.length)
    else
      c :: pyReplaceAux pat rep fuel rest

/-- Python `s.replace(old, new)` for a nonempty `old`. -/
def pyReplace (s pat rep : String) : String :=
  String.mk (pyReplaceAux pat.toList rep.toList s.toList.length s.toList)

/-! ### Python `float(...)` on price strings

`_scrape_product_info` converts the extracted price text with the
builtin `float`.  The model covers the finite decimal-literal grammar
(optional sign, integer and/or fractional digits, optional exponent,
surrounding whitespace), which is the shape of every real price string;
`inf`/`nan` spellings and digit-group underscores are outside the
model.  A string outside the grammar makes `float` raise `ValueError`,
modelled as `none`. -/

/-- Numeric value of a digit string (most significant first). -/
def natOfDigits (cs : List Char) : Nat :=
  cs.foldl (fun a c => 10 * a + (c.toNat - 48)) 0

/-- The signed decimal `d₁…dₘ.f₁…fₖ e±x` value as a rational
(`eneg` marks a negative exponent `ed`). -/
def decimalValue (sgn : ℚ) (ip fp : List Char) (eneg : Bool) (ed : Nat) : ℚ :=
  let base := sgn * ((natOfDigits ip : ℚ) + (natOfDigits fp : ℚ) / (10 : ℚ) ^ fp.length)
  if eneg then base / (10 : ℚ) ^ ed else base * (10 : ℚ) ^ ed

/-- Model of Python `float(s)`: `some` of the parsed value, or `none`
when `float` would raise `ValueError`. -/
def pyFloatQ (s : String) : Option ℚ :=
  let cs := (pyStrip s).toList
  let sgnCs : ℚ × List Char :=
    match cs with
    | '+' :: r => (1, r)
    | '-' :: r => (-1, r)
    | r => (1, r)
  let ipRest := sgnCs.2.span Char.isDigit
  let fpRest : List Char × List Char :=
    match ipRest.2 with
    | '.' :: r => r.span Char.isDigit
    | r => ([], r)
  if ipRest.1.isEmpty ∧ fpRest.1.isEmpty then
    none
  else
    match fpRest.2 with
    | [] => some (decimalValue sgnCs.1 ipRest.1 fpRest.1 false 0)
    | e :: r =>
      if e = 'e' ∨ e = 'E' then
        let esgnCs : Bool × List Char :=
          match r with
          | '+' :: r2 => (false, r2)
          | '-' :: r2 => (true, r2)
          | r2 => (false, r2)
        let edRest := esgnCs.2.span Char.isDigit
        if edRest.1.isEmpty ∨ (edRest.2.isEmpty = false) then none
        else some (decimalValue sgnCs.1 ipRest.1 fpRest.1 esgnCs.1
          (natOfDigits edRest.1))
      else none

/-! ### The parser (`Scraper.scrape_product_info`)

BeautifulSoup is an external collaborator; a fetched page's HTML string
is abstracted as the results of the exact queries the parser performs
on it:

  * `soup.find("ul", class_="products columns-4")` and its
    `find_all("li")` — the optional list of listing elements;
  * per listing: the optional `<a class="…button…">` anchor with its
    attributes, the optional
    `<img class="attachment-woocommerce_thumbnail">` with its
    attributes, and the optional `<span class="price">` with its text.

Attribute access `tag["src"]` on a missing attribute raises `KeyError`;
`tag.get(k, default)` does not. -/

/-- An HTML tag as the parser sees it: its attribute mapping. -/
structure HtmlTag where
  attrs : List (String × String)
  deriving DecidableEq, Repr

/-- `tag.get(key)` / `tag[key]` value lookup. -/
def HtmlTag.get? (tag : HtmlTag) (k : String) : Option String :=
  tag.attrs.lookup k

/-- One `<li>` product listing, abstracted as the results of the three
`find` queries `_scrape_product_info` runs on it (scraper.py lines
120, 125, 130); for the price span only its `.text` matters. -/
structure LiElement where
  titleAnchor : Option HtmlTag
  thumbImg : Option HtmlTag
  priceSpan : Option String
  deriving DecidableEq, Repr

/-- One fetched page, abstracted as the result of the
`soup.find("ul", class_="products columns-4")` query: `none` when the
container is absent, otherwise the `find_all("li")` listing elements. -/
structure Page where
  productsUl : Option (List LiElement)
  deriving DecidableEq, Repr

/-- Python `pat in s` substring test. -/
def strContains (s pat : String) : Bool :=
  containsSub pat.toList s.toList

/-- The price-text normalisation of scraper.py lines 132-136:
`price_text = price_element.text.strip()`, then — when the text holds a
`"Starting at:"` marker — `price_text.replace("Starting at:",
"").strip()` (Python `str.replace` removes every occurrence). -/
def priceBody (txt : String) : String :=
  let t1 := pyStrip txt
  if strContains t1 "Starting at:" then pyStrip (pyReplace t1 "Starting at:" "")
  else t1

/-- `Scraper._scrape_product_info` (scraper.py lines 110-146).
Title: `data-title` attribute of the button anchor, `""` if either is
absent, then `.strip()`.  Image: `img["src"]`, raising `KeyError` if
the img exists without `src`; `""` if no img.  Price: the span text is
stripped, a `"Starting at:"` prefix is removed (Python `str.replace`
removes every occurrence) and re-stripped, then
`price_text.split("₹")[1]` takes the portion after the first
rupee sign — raising `IndexError` when the text holds no rupee sign —
strips it, and converts with `float` unless empty (`0.0` then);
`float` raises `ValueError` on a malformed number.  The
`assert isinstance` lines always hold for these values. -/
def scrapeProductInfoOne (li : LiElement) : Except PyErr RawProduct :=
  let title :=
    match li.titleAnchor with
    | some a => pyStrip ((a.get? "data-title").getD "")
    | none => ""
  let imgRes : Except PyErr String :=
    match li.thumbImg with
    | some i =>
      match i.get? "src" with
      | some s => Except.ok s
      | none => Except.error PyErr.keyError
    | none => Except.ok ""
  match imgRes with
  | Except.error e => Except.error e
  | Except.ok img =>
    match li.priceSpan with
    | none => Except.ok ⟨title, 0, img⟩
    | some txt =>
      let parts := pySplit (priceBody txt) "₹"
      if parts.length < 2 then Except.error PyErr.indexError
      else
        let pt := pyStrip ((parts.get? 1).getD "")
        if pt = "" then Except.ok ⟨title, 0, img⟩
        else
          match pyFloatQ pt with
          | some q => Except.ok ⟨title, q, img⟩
          | none => Except.error PyErr.valueError

/-- `Scraper.scrape_product_info` (scraper.py lines 84-108): an absent
products container yields `[]`; otherwise each listing is extracted in
order and the first exception propagates. -/
def scrape_product_info (pg : Page) : Except PyErr (List RawProduct) :=
  match pg.productsUl with
  | none => Except.ok []
  | some lis => lis.mapM scrapeProductInfoOne

/-! ### The fetcher (`Scraper.fetch_page`)

The HTTP stack is external: attempt `i` (0-based) of a given call is
abstracted as an outcome — a response with a status code and content,
or a raised network exception.  The observable behaviour of
`fetch_page` is its return value plus its event trace: each GET
attempt, and each `time.sleep(self.retry_delay)` call. -/

/-- The outcome of one `requests.get` attempt. -/
inductive HttpOutcome where
  | resp (status : Nat) (content : String)
  | exc
  deriving DecidableEq, Repr

/-- An observable event of `fetch_page`: one GET attempt, or one
`time.sleep(self.retry_delay)` call. -/
inductive FetchEv where
  | attempt
  | sleepDelay
  deriving DecidableEq, Repr

/-- The retry loop of `Scraper.fetch_page` (scraper.py lines 63-79)
from attempt index `k` with `fuel = max_retries - k` iterations left:
a 200 response returns its content; a non-200 response prints, sleeps
`retry_delay`, and retries; a raised exception prints and retries with
no sleep. -/
def fetchLoop (responses : Nat → HttpOutcome) (k : Nat) : Nat → Option String × List FetchEv
  | 0 => (none, [])
  | fuel + 1 =>
    match responses k with
    | HttpOutcome.resp status content =>
      if status = 200 then (some content, [FetchEv.attempt])
      else
        let rec_ := fetchLoop responses (k + 1) fuel
        (rec_.1, FetchEv.attempt :: FetchEv.sleepDelay :: rec_.2)
    | HttpOutcome.exc =>
      let rec_ := fetchLoop responses (k + 1) fuel
      (rec_.1, FetchEv.attempt :: rec_.2)

/-- `Scraper.fetch_page` (scraper.py lines 56-82): run the `while
retries < max_retries` loop from `retries = 0`; on exhaustion print and
return `None`. -/
def fetch_page (responses : Nat → HttpOutcome) (max_retries : Nat := 3) :
    Option String × List FetchEv :=
  fetchLoop responses 0 max_retries

/-- `true` exactly when the attempt outcome counts as a failure in
`fetch_page`: any non-200 status, or any raised exception. -/
def attemptFails : HttpOutcome → Bool
  | HttpOutcome.resp status _ => status != 200
  | HttpOutcome.exc => true

/-- The events `fetch_page` emits for one failed attempt: attempt then
sleep for a non-200 response, attempt only for an exception. -/
def failEvents : HttpOutcome → List FetchEv
  | HttpOutcome.resp _ _ => [FetchEv.attempt, FetchEv.sleepDelay]
  | HttpOutcome.exc => [FetchEv.attempt]

/-- `true` when an event trace has two GET attempts with no sleep
between them (i.e. some consecutive pair of attempts is NOT separated
by the configured delay). -/
def hasAdjacentAttempts : List FetchEv → Bool
  | FetchEv.attempt :: FetchEv.attempt :: _ => true
  | _ :: rest => hasAdjacentAttempts rest
  | [] => false

/-! ### The store (`LocalStorage.load_from_json`)

`open` and `json.load` are external; their combined result is
abstracted as: file absent (`FileNotFoundError`), file present but not
JSON (`json.JSONDecodeError`), or the decoded JSON value.  JSON values
distinguish ints from floats exactly as Python's decoder does, which
matters because `load_from_json` asserts
`isinstance(item["product_price"], float)` — a decoded integer is an
`int`, not a `float`, and fails the assert. -/

/-- A decoded JSON value (`json.load` output).  Object keys are unique
(the decoder collapses duplicate keys to the last). -/
inductive JVal where
  | jnull
  | jbool (b : Bool)
  | jint (n : ℤ)
  | jfloat (q : ℚ)
  | jstr (s : String)
  | jarr (xs : List JVal)
  | jobj (fields : List (String × JVal))

/-- What reading and decoding `self.file_path` produced. -/
inductive LoadInput where
  | absent
  | badJson
  | json (v : JVal)

/-- `item[key]` on a decoded JSON object. -/
def getField (fields : List (String × JVal)) (k : String) : Option JVal :=
  fields.lookup k

/-- The per-item validation of `load_from_json` (scraper.py lines
192-197): the item must be a dict whose keys include the three required
ones, with `product_title` a `str`, `product_price` a `float` (a JSON
integer fails `isinstance(..., float)`), and `path_to_image` a `str`.
`none` models a failing `assert` (an `AssertionError`). -/
def validateItem : JVal → Option Record
  | JVal.jobj fields =>
    match getField fields "product_title", getField fields "product_price",
        getField fields "path_to_image" with
    | some (JVal.jstr t), some (JVal.jfloat q), some (JVal.jstr p) =>
      some ⟨t, q, p⟩
    | _, _, _ => none
  | _ => none

/-- `LocalStorage.load_from_json` (scraper.py lines 182-207): an absent
file (`FileNotFoundError`), undecodable content (`JSONDecodeError`) or
any failing validation assert (`AssertionError`) is caught and yields
`[]` — the whole file is discarded; otherwise the decoded, validated
record list is returned.  (Python returns the decoded dicts themselves,
which the subset check lets carry extra keys; only the three required
fields are ever read downstream, so a record is modelled by them.) -/
def load_from_json : LoadInput → List Record
  | LoadInput.absent => []
  | LoadInput.badJson => []
  | LoadInput.json (JVal.jarr items) =>
    match items.mapM validateItem with
    | some records => records
    | none => []
  | LoadInput.json _ => []

/-! ### The orchestrator (`ScrapingManager.scrape_and_store`)

The per-page fetch is abstracted by its result: `none` when
`fetch_page` returned `None` after its retries, `some pg` when it
returned content whose BeautifulSoup reading is `pg`.  (The `if html:`
truthiness test coincides with this: `str(response.content)` is never
the empty string.)  The observable outcome of a session is the final
in-memory cache, the ordered list of `Notifier.notify` messages, the
ordered list of page numbers iterated, the list of record lists passed
to `LocalStorage.save_to_json`, and the exception that escaped, if
any. -/

/-- Outcome of one `scrape_and_store` call.  `visitedPages` is the
ordered list of page numbers the `for` loop actually began iterating:
all of `1..pages` when the loop runs to completion, and only the
prefix up to and including the page whose processing raised when an
exception aborts it. -/
structure SessionOut where
  cache : Catalogue
  notifications : List String
  visitedPages : List Nat
  saves : List (List Record)
  err : Option PyErr
  deriving DecidableEq, Repr

/-- The `for page_num in range(1, pages + 1)` loop of
`scrape_and_store` (scraper.py lines 252-259) over the remaining page
numbers, returning the final cache, the notified messages, the page
numbers iterated, and the exception that aborted the loop, if any: a
failed fetch skips the page; otherwise the page is parsed, reconciled
into the cache, and a per-page count is notified.  A raised exception
aborts the loop at that page; cache mutations already made survive
(the dict is mutated in place) but no later page is iterated. -/
def sessionLoop (content : Nat → Option Page) :
    Catalogue → List Nat → Catalogue × List String × List Nat × Option PyErr
  | c, [] => (c, [], [], none)
  | c, n :: rest =>
    match content n with
    | none =>
      let r := sessionLoop content c rest
      (r.1, r.2.1, n :: r.2.2.1, r.2.2.2)
    | some pg =>
      match scrape_product_info pg with
      | Except.error e => (c, [], [n], some e)
      | Except.ok ps =>
        let o := db_cache_extend c ps
        match o.err with
        | some e => (o.cache, [], [n], some e)
        | none =>
          let msg := toString ps.length ++ " products scraped from page "
            ++ toString n ++ "."
          let r := sessionLoop content o.cache rest
          (r.1, msg :: r.2.1, n :: r.2.2.1, r.2.2.2)

/-- `ScrapingManager.scrape_and_store` (scraper.py lines 244-261):
load the baseline via `db_cache_fetch`, run the page loop, and — when
no exception escaped the loop — convert the cache with
`db_cache_to_dict` and save it once via `save_to_json` (whose asserts
hold for every well-typed record list).  An exception skips the save
and propagates. -/
def scrape_and_store (stored : List Record) (content : Nat → Option Page)
    (pages : Nat) : SessionOut :=
  let c0 := db_cache_fetch stored
  let r := sessionLoop content c0 (List.range' 1 pages)
  match r.2.2.2 with
  | some e => ⟨r.1, r.2.1, r.2.2.1, [], some e⟩
  | none => ⟨r.1, r.2.1, r.2.2.1, [db_cache_to_dict r.1], none⟩

/-! ### Specification-side definitions

These follow the wording of the spec/claims (defaults for absent
elements, validated store shape, last-occurrence price, merged fold of
successful pages) and are proved to agree with the embedded code. -/

/-- A listing on which the spec's "missing fields degrade to defaults"
reading is accurate: its image element (if present) carries a source
attribute, and its price element (if present) has a currency-symbol
(`₹`)-prefixed value whose numeric portion is empty or well formed. -/
def liWellFormed (li : LiElement) : Bool :=
  (match li.thumbImg with
    | some i => (i.get? "src").isSome
    | none => true)
  && (match li.priceSpan with
    | none => true
    | some txt =>
      let parts := pySplit (priceBody txt) "₹"
      decide (2 ≤ parts.length)
        && (let pt := pyStrip ((parts.get? 1).getD "")
            (pt = "") || (pyFloatQ pt).isSome))

/-- The spec's extraction contract for one listing: title from the
labelled anchor's attribute (empty if absent), image reference from the
image element's source attribute (empty if absent), price as the
numeric portion following the first currency symbol (0.0 when the
price element is absent or the numeric portion is empty). -/
def liExtract (li : LiElement) : RawProduct where
  product_title :=
    match li.titleAnchor with
    | some a => pyStrip ((a.get? "data-title").getD "")
    | none => ""
  product_price :=
    match li.priceSpan with
    | none => 0
    | some txt =>
      (pyFloatQ (pyStrip (((pySplit (priceBody txt) "₹").get? 1).getD ""))).getD 0
  image_src :=
    match li.thumbImg with
    | some i => (i.get? "src").getD ""
    | none => ""

/-- `true` when a field lookup produced a JSON string
(`isinstance(..., str)` on a present key). -/
def isStrV : Option JVal → Bool
  | some (JVal.jstr _) => true
  | _ => false

/-- `true` when a field lookup produced a JSON float
(`isinstance(..., float)` on a present key; a JSON integer is not a
Python `float`). -/
def isFloatV : Option JVal → Bool
  | some (JVal.jfloat _) => true
  | _ => false

/-- The string a field lookup produced (meaningful when `isStrV`). -/
def asStrV : Option JVal → String
  | some (JVal.jstr s) => s
  | _ => ""

/-- The float a field lookup produced (meaningful when `isFloatV`). -/
def asFloatV : Option JVal → ℚ
  | some (JVal.jfloat q) => q
  | _ => 0

/-- The claim's structural validity of one stored record: an object
carrying the three required fields with the right primitive types
(title and path strings, price a float). -/
def specRecordOk : JVal → Bool
  | JVal.jobj fields =>
    isStrV (getField fields "product_title")
      && isFloatV (getField fields "product_price")
      && isStrV (getField fields "path_to_image")
  | _ => false

/-- The record a structurally valid stored object denotes. -/
def extractRecord : JVal → Record
  | JVal.jobj fields =>
    ⟨asStrV (getField fields "product_title"),
      asFloatV (getField fields "product_price"),
      asStrV (getField fields "path_to_image")⟩
  | _ => ⟨"", 0, ""⟩

/-- The price of the last occurrence of title `t` in a raw-product
batch, or the fallback `d` when `t` never occurs. -/
def lastPriceD (ps : List RawProduct) (t : String) (d : ℚ) : ℚ :=
  ps.foldl (fun a p => if p.product_title = t then p.product_price else a) d

/-- The pure effect of reconciling a batch whose titles are all already
present: the sequence of in-place price writes. -/
def foldPrices (c : Catalogue) (ps : List RawProduct) : Catalogue :=
  ps.foldl (fun c2 p => setPrice c2 p.product_title p.product_price) c

/-- The raw products a page contributes to the session: none when its
fetch failed, the parsed listing otherwise (empty if parsing raised —
the session aborts then anyway). -/
def okProducts (content : Nat → Option Page) (n : Nat) : List RawProduct :=
  match content n with
  | none => []
  | some pg =>
    match scrape_product_info pg with
    | Except.ok ps => ps
    | Except.error _ => []

/-- `true` when page `n` poses no parse problem: its fetch failed (it
is skipped) or its content parses without an exception. -/
def pageOk (content : Nat → Option Page) (n : Nat) : Bool :=
  match content n with
  | none => true
  | some pg =>
    match scrape_product_info pg with
    | Except.ok _ => true
    | Except.error _ => false

/-- The per-page notification messages of a session over the given
page numbers: one count message per successfully fetched page. -/
def pageMsgs (content : Nat → Option Page) : List Nat → List String
  | [] => []
  | n :: rest =>
    match content n with
    | none => pageMsgs content rest
    | some _ =>
      (toString (okProducts content n).length ++ " products scraped from page "
        ++ toString n ++ ".") :: pageMsgs content rest

/-- The event trace `fetch_page` emits from attempt `k` on when every
attempt fails: one attempt event per try, followed by a sleep exactly
when the failure was a non-200 response. -/
def allFailTrace (responses : Nat → HttpOutcome) (k : Nat) : Nat → List FetchEv
  | 0 => []
  | fuel + 1 => failEvents (responses k) ++ allFailTrace responses (k + 1) fuel

/-! ### Catalogue lemmas -/

/-- An in-place price write never changes the key sequence. -/
theorem titles_setPrice (c : Catalogue) (t : String) (pr : ℚ) :
    titles (setPrice c t pr) = titles c := by
  induction c with
  | nil => rfl
  | cons e rest ih =>
    obtain ⟨t1, pr1, path1⟩ := e
    by_cases h : t1 = t
    · simp [setPrice, h, titles]
    · simp [setPrice, h, titles]
      simpa [titles] using ih

/-- Key membership is invariant under price writes. -/
theorem containsTitle_setPrice (c : Catalogue) (t s : String) (pr : ℚ) :
    containsTitle (setPrice c t pr) s = containsTitle c s := by
  unfold containsTitle
  rw [titles_setPrice]

/-- Looking up the written title after a price write: same entry with
the new price and the old image path. -/
theorem lookupEntry_setPrice_self (c : Catalogue) (t : String) (pr : ℚ) :
    lookupEntry (setPrice c t pr) t = (lookupEntry c t).map (fun v => (pr, v.2)) := by
  induction c with
  | nil => rfl
  | cons e rest ih =>
    obtain ⟨t1, pr1, path1⟩ := e
    by_cases h : t1 = t <;> simp [setPrice, lookupEntry, h, ih]

/-- A price write leaves every other title's entry untouched. -/
theorem lookupEntry_setPrice_ne (c : Catalogue) (t s : String) (pr : ℚ)
    (h : s ≠ t) :
    lookupEntry (setPrice c t pr) s = lookupEntry c s := by
  induction c with
  | nil => rfl
  | cons e rest ih =>
    obtain ⟨t1, pr1, path1⟩ := e
    by_cases h1 : t1 = t
    · subst h1
      have hns : ¬t1 = s := fun hc => h hc.symm
      simp [setPrice, lookupEntry, hns]
    · by_cases h2 : t1 = s
      · subst h2
        simp [setPrice, lookupEntry, h1]
      · simp [setPrice, lookupEntry, h1, h2, ih]

/-- Writing the price an entry already holds is a no-op. -/
theorem setPrice_eq_self (c : Catalogue) (t : String) (pr : ℚ) (path : String)
    (h : lookupEntry c t = some (pr, path)) :
    setPrice c t pr = c := by
  induction c with
  | nil => rfl
  | cons e rest ih =>
    obtain ⟨t1, pr1, path1⟩ := e
    by_cases h1 : t1 = t
    · subst h1
      simp [lookupEntry] at h
      simp [setPrice, h.1]
    · simp [lookupEntry, h1] at h
      simp [setPrice, h1, ih h]

/-- Key membership agrees with entry lookup. -/
theorem containsTitle_eq_isSome (c : Catalogue) (t : String) :
    containsTitle c t = (lookupEntry c t).isSome := by
  induction c with
  | nil => rfl
  | cons e rest ih =>
    obtain ⟨t1, pr1, path1⟩ := e
    by_cases h : t1 = t
    · subst h
      simp [containsTitle, titles, lookupEntry, List.contains_cons]
    · have hnt : (t == t1) = false := by
        simp only [beq_eq_false_iff_ne, ne_eq]
        exact fun hc => h hc.symm
      simp [containsTitle, titles, lookupEntry, List.contains_cons, h, hnt] at ih ⊢
      simpa [containsTitle, titles] using ih

/-! ### Reconciliation lemmas -/

/-- When every product's title is already a cache key, `db_cache_extend`
raises nothing, begins no download, and performs exactly the sequence
of in-place price writes. -/
theorem db_cache_extend_all_present (ps : List RawProduct) : ∀ c : Catalogue,
    (∀ p ∈ ps, containsTitle c p.product_title = true) →
    db_cache_extend c ps = ⟨foldPrices c ps, [], none⟩ := by
  induction ps with
  | nil => intro c _; rfl
  | cons p rest ih =>
    intro c h
    have hp : containsTitle c p.product_title = true := h p (List.mem_cons_self p rest)
    have hrest : ∀ q ∈ rest, containsTitle (setPrice c p.product_title p.product_price) q.product_title = true := by
      intro q hq
      rw [containsTitle_setPrice]
      exact h q (List.mem_cons_of_mem p hq)
    simp only [db_cache_extend, hp, if_true, foldPrices, List.foldl_cons]
    exact ih (setPrice c p.product_title p.product_price) hrest

/-- A pure sequence of price writes never changes the key sequence. -/
theorem titles_foldPrices (ps : List RawProduct) : ∀ c : Catalogue,
    titles (foldPrices c ps) = titles c := by
  induction ps with
  | nil => intro c; rfl
  | cons p rest ih =>
    intro c
    simp only [foldPrices, List.foldl_cons] at ih ⊢
    rw [ih, titles_setPrice]

/-- Key membership is invariant under a sequence of price writes. -/
theorem containsTitle_foldPrices (ps : List RawProduct) (c : Catalogue) (t : String) :
    containsTitle (foldPrices c ps) t = containsTitle c t := by
  unfold containsTitle
  rw [titles_foldPrices]

/-- Entry lookup after a batch of price writes: the price becomes that
of the title's last occurrence in the batch (unchanged if the title
never occurs), the image path is untouched. -/
theorem lookupEntry_foldPrices (ps : List RawProduct) : ∀ (c : Catalogue) (t : String),
    lookupEntry (foldPrices c ps) t
      = (lookupEntry c t).map (fun v => (lastPriceD ps t v.1, v.2)) := by
  induction ps with
  | nil =>
    intro c t
    simp [foldPrices, lastPriceD]
  | cons p rest ih =>
    intro c t
    simp only [foldPrices, List.foldl_cons] at ih ⊢
    rw [ih]
    by_cases h : t = p.product_title
    · subst h
      rw [lookupEntry_setPrice_self, Option.map_map]
      simp only [lastPriceD, List.foldl_cons, if_pos rfl]
      rfl
    · rw [lookupEntry_setPrice_ne _ _ _ _ h]
      have hne : ¬p.product_title = t := fun hc => h hc.symm
      simp only [lastPriceD, List.foldl_cons, if_neg hne]

/-- Entries whose title differs from the written one are fixed by the
pointwise price update. -/
theorem map_priceUpd_eq_self (l : Catalogue) (t : String) (pr : ℚ)
    (h : ∀ e ∈ l, e.1 ≠ t) :
    l.map (fun e => if e.1 = t then (e.1, pr, e.2.2) else e) = l := by
  induction l with
  | nil => rfl
  | cons e rest ih =>
    simp only [List.map_cons, if_neg (h e (List.mem_cons_self e rest)),
      ih fun e2 he => h e2 (List.mem_cons_of_mem e he), List.cons.injEq, and_self]

/-- With unique keys (the dict invariant), an in-place price write is a
pointwise update of the entry list. -/
theorem setPrice_eq_map (c : Catalogue) (t : String) (pr : ℚ)
    (h : (titles c).Nodup) :
    setPrice c t pr = c.map (fun e => if e.1 = t then (e.1, pr, e.2.2) else e) := by
  induction c with
  | nil => rfl
  | cons e rest ih =>
    obtain ⟨t1, pr1, path1⟩ := e
    simp only [titles, List.map_cons, List.nodup_cons] at h
    obtain ⟨hnotin, hnd⟩ := h
    by_cases h1 : t1 = t
    · subst h1
      have hrest : rest.map (fun e => if e.1 = t1 then (e.1, pr, e.2.2) else e) = rest := by
        apply map_priceUpd_eq_self
        intro e2 he hc
        exact hnotin (hc ▸ List.mem_map_of_mem (fun e => e.1) he)
      simp [setPrice, hrest]
    · simp only [setPrice, if_neg h1, List.map_cons, if_neg h1, List.cons.injEq,
        true_and]
      exact ih hnd

/-- With unique keys, a batch of price writes maps every entry to the
last price its title takes in the batch, keeping title and path. -/
theorem foldPrices_eq_map (ps : List RawProduct) : ∀ c : Catalogue,
    (titles c).Nodup →
    foldPrices c ps = c.map (fun e => (e.1, lastPriceD ps e.1 e.2.1, e.2.2)) := by
  induction ps with
  | nil =>
    intro c _
    exact (List.map_id c).symm ▸ rfl
  | cons p rest ih =>
    intro c h
    have hnd2 : (titles (setPrice c p.product_title p.product_price)).Nodup := by
      rw [titles_setPrice]; exact h
    simp only [foldPrices, List.foldl_cons] at ih ⊢
    rw [ih (setPrice c p.product_title p.product_price) hnd2,
      setPrice_eq_map c _ _ h, List.map_map]
    apply List.map_congr_left
    intro e _
    by_cases he : e.1 = p.product_title
    · simp only [Function.comp_apply, if_pos he, lastPriceD, List.foldl_cons,
        if_pos he.symm]
    · have hne : ¬p.product_title = e.1 := fun hc => he hc.symm
      simp only [Function.comp_apply, if_neg he, lastPriceD, List.foldl_cons,
        if_neg hne]

/-- Re-running the last-price selection with its own result as the
fallback changes nothing. -/
theorem lastPriceD_fix (ps : List RawProduct) (t : String) : ∀ d : ℚ,
    lastPriceD ps t (lastPriceD ps t d) = lastPriceD ps t d := by
  induction ps with
  | nil => intro d; rfl
  | cons p rest ih =>
    intro d
    by_cases hp : p.product_title = t
    · simp only [lastPriceD, List.foldl_cons, if_pos hp]
    · simp only [lastPriceD, List.foldl_cons, if_neg hp] at ih ⊢
      exact ih d

/-- With unique keys, a batch of price writes is idempotent on the
catalogue. -/
theorem foldPrices_idem (ps : List RawProduct) (c : Catalogue)
    (h : (titles c).Nodup) :
    foldPrices (foldPrices c ps) ps = foldPrices c ps := by
  have h2 : (titles (foldPrices c ps)).Nodup := by
    rw [titles_foldPrices]; exact h
  rw [foldPrices_eq_map ps _ h2, foldPrices_eq_map ps c h, List.map_map]
  apply List.map_congr_left
  intro e _
  simp only [Function.comp_apply, lastPriceD_fix]

/-! ### Storage-validation lemmas -/

/-- Inversion for `isStrV`. -/
theorem isStrV_shape (o : Option JVal) (h : isStrV o = true) :
    o = some (JVal.jstr (asStrV o)) := by
  cases o with
  | none => simp [isStrV] at h
  | some v => cases v <;> simp [isStrV, asStrV] at h ⊢

/-- Inversion for `isFloatV`. -/
theorem isFloatV_shape (o : Option JVal) (h : isFloatV o = true) :
    o = some (JVal.jfloat (asFloatV o)) := by
  cases o with
  | none => simp [isFloatV] at h
  | some v => cases v <;> simp [isFloatV, asFloatV] at h ⊢

/-- A structurally valid stored object passes the code's validation
asserts and denotes its extracted record. -/
theorem validateItem_of_ok (v : JVal) (h : specRecordOk v = true) :
    validateItem v = some (extractRecord v) := by
  cases v with
  | jobj fields =>
    simp only [specRecordOk, Bool.and_eq_true] at h
    obtain ⟨⟨h1, h2⟩, h3⟩ := h
    rw [validateItem, isStrV_shape _ h1, isFloatV_shape _ h2, isStrV_shape _ h3,
      extractRecord]
  | jnull => simp [specRecordOk] at h
  | jbool b => simp [specRecordOk] at h
  | jint n => simp [specRecordOk] at h
  | jfloat q => simp [specRecordOk] at h
  | jstr s => simp [specRecordOk] at h
  | jarr xs => simp [specRecordOk] at h

/-- A structurally invalid stored object fails the code's validation
asserts. -/
theorem validateItem_of_notOk (v : JVal) (h : specRecordOk v = false) :
    validateItem v = none := by
  cases v with
  | jobj fields =>
    rcases hT : getField fields "product_title" with _ | vT
    · simp [validateItem, hT]
    · cases vT with
      | jstr t =>
        rcases hP : getField fields "product_price" with _ | vP
        · simp [validateItem, hT, hP]
        · cases vP with
          | jfloat q =>
            rcases hI : getField fields "path_to_image" with _ | vI
            · simp [validateItem, hT, hP, hI]
            · cases vI with
              | jstr p =>
                exfalso
                simp [specRecordOk, hT, hP, hI, isStrV, isFloatV] at h
              | jnull => simp [validateItem, hT, hP, hI]
              | jbool b => simp [validateItem, hT, hP, hI]
              | jint n => simp [validateItem, hT, hP, hI]
              | jfloat q2 => simp [validateItem, hT, hP, hI]
              | jarr xs => simp [validateItem, hT, hP, hI]
              | jobj fs => simp [validateItem, hT, hP, hI]
          | jnull => simp [validateItem, hT, hP]
          | jbool b => simp [validateItem, hT, hP]
          | jint n => simp [validateItem, hT, hP]
          | jstr s2 => simp [validateItem, hT, hP]
          | jarr xs => simp [validateItem, hT, hP]
          | jobj fs => simp [validateItem, hT, hP]
      | jnull => simp [validateItem, hT]
      | jbool b => simp [validateItem, hT]
      | jint n => simp [validateItem, hT]
      | jfloat q => simp [validateItem, hT]
      | jarr xs => simp [validateItem, hT]
      | jobj fs => simp [validateItem, hT]
  | jnull => rfl
  | jbool b => rfl
  | jint n => rfl
  | jfloat q => rfl
  | jstr s => rfl
  | jarr xs => rfl

/-- When every element of the decoded list is structurally valid, the
validation loop succeeds and returns the denoted records. -/
theorem mapM_validate_all_ok (items : List JVal)
    (h : ∀ i ∈ items, specRecordOk i = true) :
    items.mapM validateItem = some (items.map extractRecord) := by
  induction items with
  | nil => rfl
  | cons i rest ih =>
    rw [List.mapM_cons, validateItem_of_ok i (h i (List.mem_cons_self i rest)),
      ih fun j hj => h j (List.mem_cons_of_mem i hj)]
    rfl

/-- One structurally invalid element makes the whole validation loop
fail (the whole file is discarded). -/
theorem mapM_validate_of_bad (items : List JVal) (i : JVal) (hi : i ∈ items)
    (h : specRecordOk i = false) :
    items.mapM validateItem = none := by
  induction items with
  | nil => cases hi
  | cons j rest ih =>
    rw [List.mapM_cons]
    rcases List.mem_cons.mp hi with hji | hmem
    · rw [← hji, validateItem_of_notOk i h]
      rfl
    · cases hv : validateItem j with
      | none => rfl
      | some r => rw [ih hmem]; rfl

/-! ### Fetcher lemmas -/

/-- When every remaining attempt fails, the retry loop runs them all,
emits exactly the all-fail trace, and returns `None`. -/
theorem fetchLoop_all_fail (responses : Nat → HttpOutcome) : ∀ (fuel k : Nat),
    (∀ i, i < fuel → attemptFails (responses (k + i)) = true) →
    fetchLoop responses k fuel = (none, allFailTrace responses k fuel) := by
  intro fuel
  induction fuel with
  | zero => intro k _; rfl
  | succ n ih =>
    intro k h
    have h0 : attemptFails (responses k) = true := by
      simpa using h 0 (Nat.succ_pos n)
    have hrest : ∀ i, i < n → attemptFails (responses (k + 1 + i)) = true := by
      intro i hi
      have := h (i + 1) (Nat.succ_lt_succ hi)
      simpa [Nat.add_assoc, Nat.add_comm 1 i] using this
    rcases hr : responses k with ⟨st, ct⟩ | _
    · have hst : ¬st = 200 := by
        rw [hr] at h0
        simpa [attemptFails] using h0
      simp only [fetchLoop, hr, if_neg hst, ih (k + 1) hrest, allFailTrace,
        failEvents, List.cons_append, List.nil_append]
    · simp only [fetchLoop, hr, ih (k + 1) hrest, allFailTrace, failEvents,
        List.cons_append, List.nil_append]

/-- Every failed attempt contributes exactly one GET event to the
all-fail trace: the loop performs exactly `fuel` attempts. -/
theorem allFailTrace_attempts (responses : Nat → HttpOutcome) : ∀ fuel k : Nat,
    (allFailTrace responses k fuel).count FetchEv.attempt = fuel := by
  intro fuel
  induction fuel with
  | zero => intro k; rfl
  | succ n ih =>
    intro k
    have hone : (failEvents (responses k)).count FetchEv.attempt = 1 := by
      rcases responses k with ⟨st, ct⟩ | _ <;> rfl
    simp only [allFailTrace, List.count_append, hone, ih (k + 1)]
    omega

/-! ### Session lemmas -/

/-- On a concrete page outcome, the contributed products are the parsed
listing. -/
theorem okProducts_eq (content : Nat → Option Page) (n : Nat) (pg : Page)
    (ps : List RawProduct) (hc : content n = some pg)
    (hs : scrape_product_info pg = Except.ok ps) :
    okProducts content n = ps := by
  simp [okProducts, hc, hs]

/-- When every page parses (or was skipped) and every scraped title is
already a key of the working catalogue, the page loop completes without
an exception, performs the merged sequence of price writes, and emits
one count message per fetched page. -/
theorem sessionLoop_ok (content : Nat → Option Page) : ∀ (ns : List Nat) (c : Catalogue),
    (∀ n ∈ ns, pageOk content n = true) →
    (∀ n ∈ ns, ∀ p ∈ okProducts content n, containsTitle c p.product_title = true) →
    sessionLoop content c ns
      = (foldPrices c (ns.flatMap (okProducts content)), pageMsgs content ns, ns,
        none) := by
  intro ns
  induction ns with
  | nil => intro c _ _; rfl
  | cons n rest ih =>
    intro c hok hpres
    have hokn : pageOk content n = true := hok n (List.mem_cons_self n rest)
    rcases hc : content n with _ | pg
    · have hempty : okProducts content n = [] := by simp [okProducts, hc]
      rw [sessionLoop]
      simp only [hc]
      rw [ih c (fun m hm => hok m (List.mem_cons_of_mem n hm))
        (fun m hm => hpres m (List.mem_cons_of_mem n hm))]
      simp [pageMsgs, hc, hempty]
    · rcases hs : scrape_product_info pg with e | ps
      · simp [pageOk, hc, hs] at hokn
      · have hps : okProducts content n = ps := okProducts_eq content n pg ps hc hs
        have hpn : ∀ p ∈ ps, containsTitle c p.product_title = true := by
          intro p hp
          exact hpres n (List.mem_cons_self n rest) p (hps ▸ hp)
        rw [sessionLoop]
        simp only [hc, hs]
        rw [db_cache_extend_all_present ps c hpn]
        simp only
        rw [ih (foldPrices c ps)
          (fun m hm => hok m (List.mem_cons_of_mem n hm))
          (fun m hm p hp => by
            rw [containsTitle_foldPrices]
            exact hpres m (List.mem_cons_of_mem n hm) p hp)]
        simp only [List.flatMap_cons, pageMsgs, hc, hps, foldPrices,
          List.foldl_append]

/-- The page loop iterates an initial segment of its page-number list:
all of it when no exception aborts it, and only the pages up to and
including the raising one otherwise. -/
theorem sessionLoop_visited (content : Nat → Option Page) : ∀ (ns : List Nat) (c : Catalogue),
    ∃ k, (sessionLoop content c ns).2.2.1 = ns.take k
      ∧ ((sessionLoop content c ns).2.2.2 = none →
          (sessionLoop content c ns).2.2.1 = ns) := by
  intro ns
  induction ns with
  | nil => intro c; exact ⟨0, rfl, fun _ => rfl⟩
  | cons n rest ih =>
    intro c
    rcases hc : content n with _ | pg
    · obtain ⟨k, hk, hcomp⟩ := ih c
      refine ⟨k + 1, ?_, ?_⟩
      · rw [sessionLoop]
        simp only [hc, List.take_succ_cons]
        rw [hk]
      · intro herr
        rw [sessionLoop] at herr ⊢
        simp only [hc] at herr ⊢
        rw [hcomp herr]
    · rcases hs : scrape_product_info pg with e | ps
      · refine ⟨1, ?_, ?_⟩
        · rw [sessionLoop]
          simp [hc, hs]
        · intro herr
          rw [sessionLoop] at herr
          simp [hc, hs] at herr
      · rcases ho : (db_cache_extend c ps).err with _ | e
        · obtain ⟨k, hk, hcomp⟩ := ih (db_cache_extend c ps).cache
          refine ⟨k + 1, ?_, ?_⟩
          · rw [sessionLoop]
            simp only [hc, hs, ho, List.take_succ_cons]
            rw [hk]
          · intro herr
            rw [sessionLoop] at herr ⊢
            simp only [hc, hs, ho] at herr ⊢
            rw [hcomp herr]
        · refine ⟨1, ?_, ?_⟩
          · rw [sessionLoop]
            simp [hc, hs, ho]
          · intro herr
            rw [sessionLoop] at herr
            simp [hc, hs, ho] at herr

/-! ### Parser lemmas -/

/-- The empty string is not a Python float literal. -/
theorem pyFloatQ_empty : pyFloatQ "" = none := by decide

/-- On a well-formed listing the extractor raises nothing and produces
exactly the spec's default-based extraction. -/
theorem scrapeOne_of_wellFormed (li : LiElement) (h : liWellFormed li = true) :
    scrapeProductInfoOne li = Except.ok (liExtract li) := by
  rcases hti : li.thumbImg with _ | itag
  · rcases hps : li.priceSpan with _ | txt
    · simp [scrapeProductInfoOne, liExtract, hti, hps]
    · simp only [liWellFormed, hti, hps, Bool.true_and, Bool.and_eq_true,
        Bool.or_eq_true, decide_eq_true_eq] at h
      obtain ⟨h1, h2⟩ := h
      simp only [scrapeProductInfoOne, liExtract, hti, hps]
      rw [if_neg (by omega)]
      by_cases hpt : pyStrip (((pySplit (priceBody txt) "₹").get? 1).getD "") = ""
      · rw [if_pos hpt, hpt, pyFloatQ_empty]
        rfl
      · rw [if_neg hpt]
        have hq := h2.resolve_left hpt
        obtain ⟨q, hq⟩ := Option.isSome_iff_exists.mp hq
        rw [hq]
        rfl
  · rcases hps : li.priceSpan with _ | txt
    · simp only [liWellFormed, hti, hps, Bool.and_true, Bool.and_eq_true] at h
      obtain ⟨s, hs⟩ := Option.isSome_iff_exists.mp h
      simp [scrapeProductInfoOne, liExtract, hti, hps, hs]
    · simp only [liWellFormed, hti, hps, Bool.and_eq_true, Bool.or_eq_true,
        decide_eq_true_eq] at h
      obtain ⟨hImg, h1, h2⟩ := h
      obtain ⟨s, hs⟩ := Option.isSome_iff_exists.mp hImg
      simp only [scrapeProductInfoOne, liExtract, hti, hps, hs]
      rw [if_neg (by omega)]
      by_cases hpt : pyStrip (((pySplit (priceBody txt) "₹").get? 1).getD "") = ""
      · rw [if_pos hpt, hpt, pyFloatQ_empty]
        rfl
      · rw [if_neg hpt]
        have hq := h2.resolve_left hpt
        obtain ⟨q, hq⟩ := Option.isSome_iff_exists.mp hq
        rw [hq]
        rfl

/-- When every listing of a page is well formed, the whole extraction
loop succeeds with the spec's per-listing extraction. -/
theorem mapM_scrapeOne (lis : List LiElement)
    (h : ∀ li ∈ lis, liWellFormed li = true) :
    lis.mapM scrapeProductInfoOne = Except.ok (lis.map liExtract) := by
  induction lis with
  | nil => rfl
  | cons li rest ih =>
    rw [List.mapM_cons, scrapeOne_of_wellFormed li (h li (List.mem_cons_self li rest)),
      ih fun l hl => h l (List.mem_cons_of_mem li hl)]
    rfl

/-! ### Claim theorems -/

/-- C1: for a raw product whose title is absent from the catalogue the
claim asserts exactly one image download attempt, insertion of the
scraped price with the returned path, and no exception.  Evaluating the
code at such a product shows the opposite: `db_cache_extend` raises
`AttributeError` at `self.download_image` (the function `download_image`
of scraper.py line 308 is module-level, not a `ScrapingManager` method),
performs zero download attempts, and leaves the catalogue without the
title. -/
theorem c1_new_title_reconciliation_raises :
    db_cache_extend (db_cache_fetch []) [⟨"Drill B", 50, "u2.jpg"⟩]
      = ⟨[], [], some PyErr.attributeError⟩
    ∧ lookupEntry
        (db_cache_extend (db_cache_fetch []) [⟨"Drill B", 50, "u2.jpg"⟩]).cache
        "Drill B" = none := by
  constructor
  · decide
  · decide

/-- C2 (counterexample): parsing does not always succeed — a listing
whose price element text carries no rupee sign makes
`price_text.split("₹")[1]` raise `IndexError`, which propagates out of
`scrape_product_info`. -/
theorem c2_parse_raises_counterexample :
    scrape_product_info ⟨some [⟨none, none, some "box"⟩]⟩
      = Except.error PyErr.indexError := by
  decide

/-- C2 (amended): parsing returns a list — empty when the products
container is absent — and missing elements degrade to defaults (empty
title for a missing anchor or attribute, empty image for a missing
image element, price 0.0 for a missing price element or an empty
numeric portion), provided every present image element carries a `src`
attribute and every present price element's text holds a rupee sign
followed by an empty or well-formed number; outside that proviso
parsing raises (`KeyError`, `IndexError` or `ValueError`). -/
theorem c2_parse_defaults (pg : Page) :
    (pg.productsUl = none → scrape_product_info pg = Except.ok [])
    ∧ (∀ lis, pg.productsUl = some lis →
        (∀ li ∈ lis, liWellFormed li = true) →
        scrape_product_info pg = Except.ok (lis.map liExtract)) := by
  constructor
  · intro h
    simp [scrape_product_info, h]
  · intro lis h hwf
    simp only [scrape_product_info, h]
    exact mapM_scrapeOne lis hwf

/-- C2 (witness): a page with one fully-absent listing and one complete
listing parses to the default record followed by the extracted one. -/
theorem c2_parse_defaults_witness :
    scrape_product_info
        ⟨some [⟨none, none, none⟩,
          ⟨some ⟨[("data-title", " Drill A ")]⟩, some ⟨[("src", "u1.jpg")]⟩,
            some "₹100.0"⟩]⟩
      = Except.ok [⟨"", 0, ""⟩, ⟨"Drill A", 100, "u1.jpg"⟩] := by
  have h := (c2_parse_defaults
    ⟨some [⟨none, none, none⟩,
      ⟨some ⟨[("data-title", " Drill A ")]⟩, some ⟨[("src", "u1.jpg")]⟩,
        some "₹100.0"⟩]⟩).2
    [⟨none, none, none⟩,
      ⟨some ⟨[("data-title", " Drill A ")]⟩, some ⟨[("src", "u1.jpg")]⟩,
        some "₹100.0"⟩] rfl (by decide)
  rw [h]
  with_unfolding_all decide

/-- C3 (counterexample): with two attempts that both raise network
exceptions, `fetch_page` makes exactly 2 attempts and returns `None`,
but the two attempts are adjacent in the event trace — no configured
delay separates them, against the claim's "each consecutive pair of
attempts separated by the fixed delay". -/
theorem c3_no_delay_counterexample :
    fetch_page (fun _ => HttpOutcome.exc) 2 = (none, [FetchEv.attempt, FetchEv.attempt])
    ∧ hasAdjacentAttempts (fetch_page (fun _ => HttpOutcome.exc) 2).2 = true := by
  constructor
  · decide
  · decide

/-- C3 (amended): when every attempt fails (non-200 status or network
exception), `fetch_page` makes exactly `max_retries` attempts and
returns `None` instead of raising; its trace is the all-fail trace, in
which a `retry_delay` sleep follows exactly the non-200 attempts (also
the final one) while an attempt that raised is followed immediately by
the next attempt with no delay. -/
theorem c3_fetch_retry_bound (responses : Nat → HttpOutcome) (max_retries : Nat)
    (h : ∀ i, i < max_retries → attemptFails (responses i) = true) :
    (fetch_page responses max_retries).1 = none
    ∧ (fetch_page responses max_retries).2 = allFailTrace responses 0 max_retries
    ∧ ((fetch_page responses max_retries).2).count FetchEv.attempt = max_retries := by
  have hall := fetchLoop_all_fail responses max_retries 0 (by simpa using h)
  refine ⟨?_, ?_, ?_⟩
  · rw [fetch_page, hall]
  · rw [fetch_page, hall]
  · rw [fetch_page, hall]
    exact allFailTrace_attempts responses max_retries 0

/-- C3 (witness): three always-failing attempts — a 500 response, an
exception, a 500 response — yield `None` after exactly 3 attempts, with
sleeps after the two non-200 attempts only. -/
theorem c3_fetch_retry_bound_witness :
    (fetch_page (fun i => if i = 1 then HttpOutcome.exc else HttpOutcome.resp 500 "x") 3).1 = none
    ∧ (fetch_page (fun i => if i = 1 then HttpOutcome.exc else HttpOutcome.resp 500 "x") 3).2
        = [FetchEv.attempt, FetchEv.sleepDelay, FetchEv.attempt,
           FetchEv.attempt, FetchEv.sleepDelay]
    ∧ ((fetch_page (fun i => if i = 1 then HttpOutcome.exc else HttpOutcome.resp 500 "x") 3).2).count
        FetchEv.attempt = 3 := by
  have h := c3_fetch_retry_bound
    (fun i => if i = 1 then HttpOutcome.exc else HttpOutcome.resp 500 "x") 3
    (by decide)
  refine ⟨h.1, ?_, h.2.2⟩
  rw [h.2.1]
  decide

/-- C4: the claim asserts one save followed by one session-summary
notification with insert/update counts.  Evaluating a session (one
page, fetch fails, baseline one record) shows the save happens exactly
once but the notifier receives no message at all: the code sends only
per-page count messages for successful pages, never an end-of-session
summary, and maintains no insert/update counters — contradicting the
requirement stated in the source's own assignment comment (scraper.py
line 23). -/
theorem c4_no_session_summary :
    scrape_and_store [⟨"Drill A", 1, "a.jpg"⟩] (fun _ => none) 1
      = ⟨[("Drill A", 1, "a.jpg")], [], [1], [[⟨"Drill A", 1, "a.jpg"⟩]], none⟩ := by
  decide

/-- C5: reconciling a raw product whose title is already a catalogue
key raises nothing, triggers no image download, and keeps the stored
image path; with an equal scraped price the catalogue is entirely
unchanged, and with a different price only that title's price field
changes — every other entry is untouched. -/
theorem c5_existing_title_frame (c : Catalogue) (p : RawProduct) (pr0 : ℚ)
    (path0 : String) (h : lookupEntry c p.product_title = some (pr0, path0)) :
    (db_cache_extend c [p]).err = none
    ∧ (db_cache_extend c [p]).downloads = []
    ∧ lookupEntry (db_cache_extend c [p]).cache p.product_title
        = some (p.product_price, path0)
    ∧ (p.product_price = pr0 → (db_cache_extend c [p]).cache = c)
    ∧ (∀ s, s ≠ p.product_title →
        lookupEntry (db_cache_extend c [p]).cache s = lookupEntry c s) := by
  have hct : containsTitle c p.product_title = true := by
    rw [containsTitle_eq_isSome, h]
    rfl
  have hstep : db_cache_extend c [p]
      = ⟨setPrice c p.product_title p.product_price, [], none⟩ := by
    simp [db_cache_extend, hct]
  refine ⟨by rw [hstep], by rw [hstep], ?_, ?_, ?_⟩
  · rw [hstep]
    show lookupEntry (setPrice c p.product_title p.product_price) p.product_title = _
    rw [lookupEntry_setPrice_self, h]
    rfl
  · intro hpr
    rw [hstep]
    show setPrice c p.product_title p.product_price = c
    exact setPrice_eq_self c p.product_title p.product_price path0 (hpr ▸ h)
  · intro s hs
    rw [hstep]
    exact lookupEntry_setPrice_ne c p.product_title s p.product_price hs

/-- C5 (witness): the spec's price-unchanged scenario — baseline
`{"Drill A": (100.0, "img/a.jpg")}`, scraped `("Drill A", 100.0, "u1")`
— leaves the catalogue identical, downloads nothing, raises nothing. -/
theorem c5_existing_title_frame_witness :
    (db_cache_extend [("Drill A", 100, "img/a.jpg")] [⟨"Drill A", 100, "u1"⟩]).err = none
    ∧ (db_cache_extend [("Drill A", 100, "img/a.jpg")] [⟨"Drill A", 100, "u1"⟩]).downloads = []
    ∧ (db_cache_extend [("Drill A", 100, "img/a.jpg")] [⟨"Drill A", 100, "u1"⟩]).cache
        = [("Drill A", 100, "img/a.jpg")] := by
  have h := c5_existing_title_frame [("Drill A", 100, "img/a.jpg")]
    ⟨"Drill A", 100, "u1"⟩ 100 "img/a.jpg" (by decide)
  exact ⟨h.1, h.2.1, h.2.2.2.1 rfl⟩

/-- C6 (counterexample): the claim's first application need not produce
a catalogue at all — on a list holding a title absent from the (empty)
catalogue the first `db_cache_extend` raises `AttributeError` (the
module-level `download_image` is not a method), so no second
application can be run on its result. -/
theorem c6_first_pass_raises_counterexample :
    (db_cache_extend [] [⟨"Drill C", 50, "u.jpg"⟩]).err
      = some PyErr.attributeError := by
  decide

/-- C6 (amended): whenever the first application completes without
raising — equivalently, when every title of the raw-product list is
already a key of the catalogue (whose dict keys are unique) — applying
`db_cache_extend` a second time with the same list returns the
identical catalogue with no download and no exception: no entry is
added and no stored value changes on the second pass. -/
theorem c6_idempotent_reconciliation (c : Catalogue) (ps : List RawProduct)
    (hnd : (titles c).Nodup)
    (hpres : ∀ p ∈ ps, containsTitle c p.product_title = true) :
    (db_cache_extend c ps).err = none
    ∧ db_cache_extend (db_cache_extend c ps).cache ps
        = ⟨(db_cache_extend c ps).cache, [], none⟩ := by
  have h1 := db_cache_extend_all_present ps c hpres
  have hpres2 : ∀ p ∈ ps, containsTitle (foldPrices c ps) p.product_title = true := by
    intro p hp
    rw [containsTitle_foldPrices]
    exact hpres p hp
  have h2 := db_cache_extend_all_present ps (foldPrices c ps) hpres2
  constructor
  · rw [h1]
  · rw [h1]
    show db_cache_extend (foldPrices c ps) ps = _
    rw [h2, foldPrices_idem ps c hnd]

/-- C6 (witness): reconciling a batch over a two-entry baseline twice —
the second pass returns the identical catalogue and no error. -/
theorem c6_idempotent_reconciliation_witness :
    (db_cache_extend [("Drill A", 1, "a.jpg"), ("Drill B", 2, "b.jpg")]
        [⟨"Drill A", 5, "u"⟩, ⟨"Drill B", 2, "v"⟩, ⟨"Drill A", 7, "w"⟩]).err = none
    ∧ db_cache_extend
        (db_cache_extend [("Drill A", 1, "a.jpg"), ("Drill B", 2, "b.jpg")]
          [⟨"Drill A", 5, "u"⟩, ⟨"Drill B", 2, "v"⟩, ⟨"Drill A", 7, "w"⟩]).cache
        [⟨"Drill A", 5, "u"⟩, ⟨"Drill B", 2, "v"⟩, ⟨"Drill A", 7, "w"⟩]
      = ⟨(db_cache_extend [("Drill A", 1, "a.jpg"), ("Drill B", 2, "b.jpg")]
          [⟨"Drill A", 5, "u"⟩, ⟨"Drill B", 2, "v"⟩, ⟨"Drill A", 7, "w"⟩]).cache,
        [], none⟩ :=
  c6_idempotent_reconciliation
    [("Drill A", 1, "a.jpg"), ("Drill B", 2, "b.jpg")]
    [⟨"Drill A", 5, "u"⟩, ⟨"Drill B", 2, "v"⟩, ⟨"Drill A", 7, "w"⟩]
    (by decide) (by decide)

/-- C7 (counterexample): with page 3 of 5 failing and the other pages
carrying a product whose title is new, the session does not complete:
reconciliation of page 1 raises `AttributeError` (the `download_image`
bug), the exception propagates out of `scrape_and_store`, and nothing
is saved — every page's merged state is lost, not only the failed
page's. -/
theorem c7_session_raises_counterexample :
    (scrape_and_store []
        (fun n => if n = 3 then none else some ⟨some
          [⟨some ⟨[("data-title", "New Item")]⟩, some ⟨[("src", "u.jpg")]⟩,
            some "₹5.0"⟩]⟩) 5).saves = []
    ∧ (scrape_and_store []
        (fun n => if n = 3 then none else some ⟨some
          [⟨some ⟨[("data-title", "New Item")]⟩, some ⟨[("src", "u.jpg")]⟩,
            some "₹5.0"⟩]⟩) 5).err = some PyErr.attributeError := by
  constructor
  · decide
  · decide

/-- C7 (amended): when every fetched page parses without an exception
and every scraped title is already in the baseline catalogue, a session
with any set of failed (skipped) pages completes without an exception
and saves, exactly once, the baseline merged with the products of every
successfully fetched page in order — no successful page's contribution
is lost. -/
theorem c7_failed_page_skipped (stored : List Record)
    (content : Nat → Option Page) (pages : Nat)
    (hok : ∀ n ∈ List.range' 1 pages, pageOk content n = true)
    (hpres : ∀ n ∈ List.range' 1 pages, ∀ p ∈ okProducts content n,
      containsTitle (db_cache_fetch stored) p.product_title = true) :
    (scrape_and_store stored content pages).err = none
    ∧ (scrape_and_store stored content pages).saves
        = [db_cache_to_dict (foldPrices (db_cache_fetch stored)
            ((List.range' 1 pages).flatMap (okProducts content)))]
    ∧ (scrape_and_store stored content pages).cache
        = foldPrices (db_cache_fetch stored)
            ((List.range' 1 pages).flatMap (okProducts content)) := by
  have hs := sessionLoop_ok content (List.range' 1 pages) (db_cache_fetch stored)
    hok hpres
  refine ⟨?_, ?_, ?_⟩ <;> simp [scrape_and_store, hs]

/-- C7 (witness): a 5-page crawl whose page 3 fetch fails while pages
1, 2, 4, 5 each scrape the existing product "Drill A" at price 9:
the session raises nothing and the single save holds the merged
result of all four successful pages. -/
theorem c7_failed_page_skipped_witness :
    (scrape_and_store [⟨"Drill A", 1, "a.jpg"⟩, ⟨"Drill B", 2, "b.jpg"⟩]
        (fun n => if n = 3 then none else some ⟨some
          [⟨some ⟨[("data-title", "Drill A")]⟩, some ⟨[("src", "u.jpg")]⟩,
            some "₹9.0"⟩]⟩) 5).err = none
    ∧ (scrape_and_store [⟨"Drill A", 1, "a.jpg"⟩, ⟨"Drill B", 2, "b.jpg"⟩]
        (fun n => if n = 3 then none else some ⟨some
          [⟨some ⟨[("data-title", "Drill A")]⟩, some ⟨[("src", "u.jpg")]⟩,
            some "₹9.0"⟩]⟩) 5).saves
      = [[⟨"Drill A", 9, "a.jpg"⟩, ⟨"Drill B", 2, "b.jpg"⟩]] := by
  have h := c7_failed_page_skipped
    [⟨"Drill A", 1, "a.jpg"⟩, ⟨"Drill B", 2, "b.jpg"⟩]
    (fun n => if n = 3 then none else some ⟨some
      [⟨some ⟨[("data-title", "Drill A")]⟩, some ⟨[("src", "u.jpg")]⟩,
        some "₹9.0"⟩]⟩) 5
    (by decide) (by with_unfolding_all decide)
  refine ⟨h.1, ?_⟩
  rw [h.2.1]
  with_unfolding_all decide

/-- C8: `load_from_json` is a total function of what the file read
produced (it catches the `FileNotFoundError`, `JSONDecodeError` and
`AssertionError` its body can raise): an absent file, undecodable
content, a non-list document, or a list with any structurally invalid
record — a missing required field or a wrongly-typed one — yields the
empty list, discarding the whole file; a list of structurally valid
records yields exactly those records. -/
theorem c8_load_validation (inp : LoadInput) :
    ((∀ items, inp ≠ LoadInput.json (JVal.jarr items)) → load_from_json inp = [])
    ∧ (∀ items, inp = LoadInput.json (JVal.jarr items) →
        load_from_json inp
          = if items.all specRecordOk = true then items.map extractRecord
            else []) := by
  constructor
  · intro h
    cases inp with
    | absent => rfl
    | badJson => rfl
    | json v =>
      cases v with
      | jarr items => exact absurd rfl (h items)
      | jnull => rfl
      | jbool b => rfl
      | jint n => rfl
      | jfloat q => rfl
      | jstr s => rfl
      | jobj fs => rfl
  · intro items heq
    subst heq
    by_cases hall : items.all specRecordOk = true
    · rw [if_pos hall]
      show (match items.mapM validateItem with
        | some records => records
        | none => []) = _
      rw [mapM_validate_all_ok items (List.all_eq_true.mp hall)]
    · rw [if_neg hall]
      have hbad : ∃ i ∈ items, specRecordOk i = false := by
        by_contra hcon
        push_neg at hcon
        apply hall
        rw [List.all_eq_true]
        intro x hx
        cases hsp : specRecordOk x with
        | true => rfl
        | false => exact absurd hsp (hcon x hx)
      obtain ⟨i, hi, hib⟩ := hbad
      show (match items.mapM validateItem with
        | some records => records
        | none => []) = _
      rw [mapM_validate_of_bad items i hi hib]

/-- C8 (witness): a store holding one valid record and one record whose
price is a JSON integer loads as the empty list (the whole file is
discarded); the store holding only the valid record loads as that
record. -/
theorem c8_load_validation_witness :
    load_from_json (LoadInput.json (JVal.jarr
      [JVal.jobj [("product_title", JVal.jstr "Drill A"),
        ("product_price", JVal.jfloat 2), ("path_to_image", JVal.jstr "p.jpg")],
       JVal.jobj [("product_title", JVal.jstr "Drill B"),
        ("product_price", JVal.jint 3), ("path_to_image", JVal.jstr "q.jpg")]]))
      = []
    ∧ load_from_json (LoadInput.json (JVal.jarr
        [JVal.jobj [("product_title", JVal.jstr "Drill A"),
          ("product_price", JVal.jfloat 2), ("path_to_image", JVal.jstr "p.jpg")]]))
      = [⟨"Drill A", 2, "p.jpg"⟩] := by
  have h1 := (c8_load_validation (LoadInput.json (JVal.jarr
    [JVal.jobj [("product_title", JVal.jstr "Drill A"),
      ("product_price", JVal.jfloat 2), ("path_to_image", JVal.jstr "p.jpg")],
     JVal.jobj [("product_title", JVal.jstr "Drill B"),
      ("product_price", JVal.jint 3), ("path_to_image", JVal.jstr "q.jpg")]]))).2
    [JVal.jobj [("product_title", JVal.jstr "Drill A"),
      ("product_price", JVal.jfloat 2), ("path_to_image", JVal.jstr "p.jpg")],
     JVal.jobj [("product_title", JVal.jstr "Drill B"),
      ("product_price", JVal.jint 3), ("path_to_image", JVal.jstr "q.jpg")]] rfl
  have h2 := (c8_load_validation (LoadInput.json (JVal.jarr
    [JVal.jobj [("product_title", JVal.jstr "Drill A"),
      ("product_price", JVal.jfloat 2), ("path_to_image", JVal.jstr "p.jpg")]]))).2
    [JVal.jobj [("product_title", JVal.jstr "Drill A"),
      ("product_price", JVal.jfloat 2), ("path_to_image", JVal.jstr "p.jpg")]] rfl
  rw [h1, h2]
  constructor
  · decide
  · decide

/-- C9 (counterexample): a repeated title that is new to the catalogue
never reaches the last-occurrence price — the first occurrence already
raises `AttributeError` (the `download_image` bug), and the catalogue
ends without the title at all. -/
theorem c9_duplicate_new_title_counterexample :
    (db_cache_extend [] [⟨"Drill D", 1, "u"⟩, ⟨"Drill D", 2, "v"⟩]).err
        = some PyErr.attributeError
    ∧ lookupEntry
        (db_cache_extend [] [⟨"Drill D", 1, "u"⟩, ⟨"Drill D", 2, "v"⟩]).cache
        "Drill D" = none := by
  constructor
  · decide
  · decide

/-- C9 (amended): for a title already present in the catalogue,
reconciling a batch stores the price of the title's last occurrence in
the batch (keeping the image path); and a session iterates its pages in
strictly increasing page-number order — the visited pages are always an
initial segment of `1..pages`, and exactly `1..pages` when no exception
escapes — so a later page's reconciliation supersedes an earlier
page's. -/
theorem c9_last_write_wins :
    (∀ (c : Catalogue) (ps : List RawProduct) (t : String) (pr0 : ℚ) (path0 : String),
      (∀ p ∈ ps, containsTitle c p.product_title = true) →
      lookupEntry c t = some (pr0, path0) →
      (db_cache_extend c ps).err = none
        ∧ lookupEntry (db_cache_extend c ps).cache t
            = some (lastPriceD ps t pr0, path0))
    ∧ (∀ (stored : List Record) (content : Nat → Option Page) (pages : Nat),
        (∃ k, (scrape_and_store stored content pages).visitedPages
            = (List.range' 1 pages).take k)
          ∧ (scrape_and_store stored content pages).visitedPages.Pairwise (· < ·)
          ∧ ((scrape_and_store stored content pages).err = none →
              (scrape_and_store stored content pages).visitedPages
                = List.range' 1 pages)) := by
  constructor
  · intro c ps t pr0 path0 hpres hlook
    have h1 := db_cache_extend_all_present ps c hpres
    refine ⟨by rw [h1], ?_⟩
    rw [h1]
    show lookupEntry (foldPrices c ps) t = _
    rw [lookupEntry_foldPrices, hlook]
    rfl
  · intro stored content pages
    obtain ⟨k, hk, hcomp⟩ := sessionLoop_visited content (List.range' 1 pages)
      (db_cache_fetch stored)
    have hvp : (scrape_and_store stored content pages).visitedPages
        = (sessionLoop content (db_cache_fetch stored) (List.range' 1 pages)).2.2.1 := by
      rcases hr : (sessionLoop content (db_cache_fetch stored)
        (List.range' 1 pages)).2.2.2 with _ | e <;>
        simp [scrape_and_store, hr]
    have herr : (scrape_and_store stored content pages).err
        = (sessionLoop content (db_cache_fetch stored) (List.range' 1 pages)).2.2.2 := by
      rcases hr : (sessionLoop content (db_cache_fetch stored)
        (List.range' 1 pages)).2.2.2 with _ | e <;>
        simp [scrape_and_store, hr]
    refine ⟨⟨k, by rw [hvp, hk]⟩, ?_, ?_⟩
    · rw [hvp, hk]
      exact List.Pairwise.sublist (List.take_sublist k (List.range' 1 pages))
        (List.pairwise_lt_range' 1 pages)
    · intro hnone
      rw [hvp]
      exact hcomp (herr ▸ hnone)

/-- C9 (witness): reconciling `[("Drill A", 5), ("Drill A", 9)]` over a
baseline holding "Drill A" at price 1 stores 9, the last occurrence's
price, with the path kept; a 3-page session that raises nothing visits
exactly the pages `[1, 2, 3]`. -/
theorem c9_last_write_wins_witness :
    ((db_cache_extend [("Drill A", 1, "a.jpg")]
        [⟨"Drill A", 5, "u"⟩, ⟨"Drill A", 9, "v"⟩]).err = none
      ∧ lookupEntry (db_cache_extend [("Drill A", 1, "a.jpg")]
          [⟨"Drill A", 5, "u"⟩, ⟨"Drill A", 9, "v"⟩]).cache "Drill A"
        = some (9, "a.jpg"))
    ∧ (scrape_and_store [] (fun _ => none) 3).visitedPages = [1, 2, 3] := by
  have h1 := c9_last_write_wins.1 [("Drill A", 1, "a.jpg")]
    [⟨"Drill A", 5, "u"⟩, ⟨"Drill A", 9, "v"⟩] "Drill A" 1 "a.jpg"
    (by decide) (by decide)
  have h2 := (c9_last_write_wins.2 [] (fun _ => none) 3).2.2 (by decide)
  refine ⟨⟨h1.1, ?_⟩, ?_⟩
  · rw [h1.2]
    decide
  · rw [h2]
    decide

/-- C10: the claim asserts that for a duplicated new title the first
occurrence downloads and inserts and the second only updates the
price.  Evaluating the code on such a batch shows instead that the
first occurrence already raises `AttributeError` (the `download_image`
bug): no download begins, no entry is created, and the second
occurrence is never processed. -/
theorem c10_duplicate_new_title_raises :
    db_cache_extend [] [⟨"Drill X", 5, "u1.png"⟩, ⟨"Drill X", 6, "u2.png"⟩]
      = ⟨[], [], some PyErr.attributeError⟩ := by
  decide
